import Mathlib

/-!
Verification development for the Civ7ModManager mod ingestion and
conflict-analysis engine.  The Python sources under `src/` are embedded
shallowly: pure logic becomes Lean functions, filesystem effects become
explicit state passing, and externally-performed steps (the raw archive
decoding, directory moves) become explicit outcome parameters.
-/

namespace Civ7MM

/-! ## String primitives

Strings are manipulated through their character lists (`String.data`)
so that every operation is a structurally recursive, fully computable
function. -/

/-- Python `s.split(c)` for a single-character separator. -/
def split_on_char (c : Char) (l : List Char) : List (List Char) :=
  l.foldr
    (fun ch acc =>
      if ch = c then [] :: acc
      else
        match acc with
        | [] => [[ch]]
        | a :: rest => (ch :: a) :: rest)
    [[]]

/-- ASCII lower-casing of one character (`str.lower` on the archive
suffixes, which are ASCII). -/
def char_lower (c : Char) : Char :=
  if 'A' ≤ c ∧ c ≤ 'Z' then Char.ofNat (c.toNat + 32) else c

def lower_string (s : String) : String :=
  ⟨s.data.map char_lower⟩

def is_space_char (c : Char) : Bool :=
  c = ' ' ∨ c = '\t' ∨ c = '\n' ∨ c = '\r'

/-- Python `s.strip()`. -/
def str_trim (s : String) : String :=
  ⟨((s.data.dropWhile is_space_char).reverse.dropWhile is_space_char).reverse⟩

/-- Python `s.startswith(t)`. -/
def str_starts_with (s t : String) : Bool :=
  t.data.isPrefixOf s.data

/-- Python `s.endswith(t)`. -/
def str_ends_with (s t : String) : Bool :=
  t.data.isSuffixOf s.data

def list_has_sub (sub : List Char) : List Char → Bool
  | [] => sub.isPrefixOf []
  | c :: rest => sub.isPrefixOf (c :: rest) || list_has_sub sub rest

/-- Python `sub in s` — substring containment. -/
def str_contains_sub (s sub : String) : Bool :=
  list_has_sub sub.data s.data

/-! ## Path helpers (pathlib.Path semantics used by the sources)

Paths are lists of components.  `path_stem` and `path_suffix` model
`Path(...).stem` and `Path(...).suffix` on a file name: the suffix is the
part from the last dot, except that a name with no dot, or a bare
dot-file such as `.bashrc`, has an empty suffix. -/

def path_suffix (name : String) : String :=
  let parts := split_on_char '.' name.data
  if parts.length ≤ 1 then ""
  else if parts.head? = some [] ∧ parts.length = 2 then ""
  else ⟨'.' :: parts.getLastD []⟩

def path_stem (name : String) : String :=
  let parts := split_on_char '.' name.data
  if parts.length ≤ 1 then name
  else if parts.head? = some [] ∧ parts.length = 2 then name
  else ⟨List.intercalate ['.'] parts.dropLast⟩

/-! ## `src/src/archive.py` — `ArchiveHandler`

`get_archive_type` dispatches on the lower-cased file suffix and raises
`ValueError` on anything else; this happens before the scratch directory
is created. -/

def get_archive_type (fileName : String) : Option String :=
  let ext := lower_string (path_suffix fileName)
  if ext = ".zip" then some "zip"
  else if ext = ".7z" then some "7z"
  else if ext = ".rar" ∨ ext = ".r00" then some "rar"
  else none

/-- Outcome of an effectful step (raw archive decoding, directory
rename/move) that the Python code delegates to a library or the OS. -/
inductive StepOut where
  | success
  | failure (msg : String)
deriving DecidableEq

/-- Input to `ArchiveHandler.extract_mod_folder`: the archive's file
name, the relative paths (with their raw byte contents, which the
function never reads) that a successful raw extraction would place in
the scratch directory, and the outcomes of the two effectful steps. -/
structure ArchiveInput where
  fileName : String
  contents : List (List String × String)
  extraction : StepOut
  moveOut : StepOut
deriving DecidableEq

/-- Result of a successful `extract_mod_folder`: the returned mod name
(the install directory is `target_path / modName`) and the relative
paths installed inside it. -/
structure ExtractResult where
  modName : String
  installed : List (List String × String)
deriving DecidableEq

/-- First `*.modinfo` match of `temp_extract.rglob("*.modinfo")`,
modelled as the first match in the extracted-contents listing. -/
def first_modinfo (c : List (List String × String)) : Option (List String) :=
  ((c.map (·.1)).filter (fun p => str_ends_with (p.getLastD "") ".modinfo")).head?

/-- `ArchiveHandler.extract_mod_folder`.  The returned `Bool` records
whether the scratch directory `_temp_<archive stem>` still exists when
the call returns (the `except` clause deletes it on every error path;
on success it is renamed away or deleted after the move).  The walk-up
loop `while mod_root.parent != temp_extract ...` resolves the moved
subtree to the top-level subfolder of the scratch directory, i.e. the
head component of the modinfo path. -/
def extract_mod_folder (a : ArchiveInput) : Except String ExtractResult × Bool :=
  match get_archive_type a.fileName with
  | none => (.error "Unsupported archive format", false)
  | some _ =>
    match a.extraction with
    | .failure msg => (.error msg, false)
    | .success =>
      match first_modinfo a.contents with
      | none => (.error "No .modinfo file found in archive", false)
      | some p =>
        let modName := path_stem (p.getLastD "")
        if p.length = 1 then
          match a.moveOut with
          | .failure msg => (.error msg, false)
          | .success => (.ok ⟨modName, a.contents⟩, false)
        else
          let modRoot := p.headD ""
          match a.moveOut with
          | .failure msg => (.error msg, false)
          | .success =>
            (.ok ⟨modName,
                  a.contents.filterMap
                    (fun q => if q.1.head? = some modRoot then some (q.1.tail, q.2) else none)⟩,
             false)

/-! ## `src/src/utilities/archive.py` — `extract`

A small filesystem view: the sets of existing files and directories.
`extract` defaults a missing target to the archive's parent directory,
then unconditionally calls `os.mkdir(target)`, which raises
`FileExistsError` when the target already exists.  No cleanup is
performed on any failure path. -/

structure UFS where
  files : List (List String)
  dirs : List (List String)
deriving DecidableEq

/-- Either a returned `ArchiveResult(message, path)` or an uncaught
exception escaping `extract`. -/
inductive UOutcome where
  | res (message : String) (path : Option (List String))
  | exc (name : String)
deriving DecidableEq

/-- `extract(file_path, target_path)`.  `outcome` is the result of the
raw decoding step for a supported format: the relative paths it writes
on success, or the error message of the `ArchiveError` it raises. -/
def extract (fs : UFS) (filePath : List String) (targetPath : Option (List String))
    (outcome : Except String (List (List String))) : UFS × UOutcome :=
  let target := targetPath.getD filePath.dropLast
  if filePath ∉ fs.files then
    (fs, .res "Archive not found" none)
  else if target ∈ fs.dirs then
    (fs, .exc "FileExistsError")
  else
    let fs' : UFS := { fs with dirs := fs.dirs ++ [target] }
    let ext := path_suffix (filePath.getLastD "")
    if ext = ".zip" ∨ ext = ".7z" ∨ ext = ".rar" ∨ ext = ".r00" then
      match outcome with
      | .error msg => (fs', .exc msg)
      | .ok rel =>
        ({ fs' with files := fs'.files ++ rel.map (fun r => target ++ r) },
         .res "Successfully extracted" (some target))
    else
      (fs', .res ("Unsupported archive format: " ++ ext) none)

/-- `install_local_mod` (src/src/app/ui/get_mods_page.py) derives the
install directory name from the archive's own stem:
`folder_name = Path(archive).stem; target_path = storage_path / folder_name`. -/
def install_local_mod_target_name (archiveName : String) : String :=
  path_stem archiveName

/-! ## Canonical string sets

Python `set[str]` values are modelled up to the canonical, strictly
sorted, duplicate-free listing of their elements: iteration over a set
value is deterministic, and the lexicographic listing is the canonical
choice. -/

/-- Strict lexicographic order on character lists. -/
def chars_lt : List Char → List Char → Bool
  | [], [] => false
  | [], _ :: _ => true
  | _ :: _, [] => false
  | a :: as, b :: bs => if a = b then chars_lt as bs else decide (a < b)

/-- Strict lexicographic order on strings. -/
def str_lt (a b : String) : Prop :=
  chars_lt a.data b.data = true

instance : DecidableRel str_lt := fun a b =>
  inferInstanceAs (Decidable (chars_lt a.data b.data = true))

/-- Ordered duplicate-free insertion. -/
def set_insert (s : String) : List String → List String
  | [] => [s]
  | t :: rest =>
    if s = t then t :: rest
    else if chars_lt s.data t.data then s :: t :: rest
    else t :: set_insert s rest

/-- Canonical listing of a finite set of strings. -/
def set_sort : List String → List String
  | [] => []
  | s :: rest => set_insert s (set_sort rest)

/-! ## `src/src/main.py` — conflict tracking

A mod as held in `Civ7ModManager.self.mods` (keyed by folder name).
`metadata['affected_files']` is a Python `set[str]`, carried as the
list of its elements; `mod.conflicts` is a Python `dict[str, str]`
written by `mod.conflicts[other_display_name] = file`, modelled as an
ordered association list with Python's update-in-place / append-new
semantics. -/

structure MMod where
  folder : String
  display : String
  modId : String
  enabled : Bool
  affected : List String
  conflicts : List (String × String)
deriving DecidableEq

/-- Python `d[k] = v`: replace in place if the key exists, else append. -/
def dict_set : List (String × String) → String → String → List (String × String)
  | [], k, v => [(k, v)]
  | (k', v') :: rest, k, v =>
    if k' = k then (k, v) :: rest else (k', v') :: dict_set rest k v

/-- Python `d.get(k)` / `k in d`. -/
def dict_get : List (String × String) → String → Option String
  | [], _ => none
  | (k', v') :: rest, k => if k' = k then some v' else dict_get rest k

/-- `common_files = mod.affected & other.affected`, iterated in the
canonical (sorted) order; Python set iteration is deterministic for a
fixed set value. -/
def common_files (a b : List String) : List String :=
  set_sort (a.filter (fun s => decide (s ∈ b)))

/-- The body `for file in common_files: mod.conflicts[name] = file`. -/
def add_pair_conflicts (d : List (String × String)) (key : String)
    (files : List String) : List (String × String) :=
  files.foldl (fun d f => dict_set d key f) d

/-- One iteration of the inner loop of `_update_conflicts` for mod `m`:
every enabled other (distinct dict key, i.e. folder name) writes its
shared files under its `display_name`. -/
def conflict_step (m : MMod) (d : List (String × String)) (other : MMod) :
    List (String × String) :=
  if other.folder ≠ m.folder then
    add_pair_conflicts d other.display (common_files m.affected other.affected)
  else d

/-- The conflicts dict `_update_conflicts` leaves on mod `m`:
cleared, then — only if `m` is enabled — refilled against every
enabled mod. -/
def conflicts_for (mods : List MMod) (m : MMod) : List (String × String) :=
  if m.enabled then (mods.filter (·.enabled)).foldl (conflict_step m) [] else []

/-- `Civ7ModManager._update_conflicts`. -/
def update_conflicts (mods : List MMod) : List MMod :=
  mods.map (fun m => { m with conflicts := conflicts_for mods m })

/-- `Civ7ModManager.disable_all_mods`: unchecks every mod, sets
`enabled = False`, then recomputes conflicts. -/
def disable_all_mods (mods : List MMod) : List MMod :=
  update_conflicts (mods.map (fun m => { m with enabled := false }))

/-! ## `src/src/ui/installed_page.py` — `_check_mod_conflicts`

A mod record as returned by the database layer, with the four
affected-file buckets of the newer parser. -/

structure DbMod where
  mod_id : String
  update_db : Finset String
  update_text : Finset String
  ui_scripts : Finset String
  import_files : Finset String

/-- The file set `_check_mod_conflicts` accumulates for a mod: only the
`ui_scripts` and `import_files` buckets. -/
def mod_files (m : DbMod) : Finset String :=
  m.ui_scripts ∪ m.import_files

/-- `_check_mod_conflicts(mod)`: true iff some other enabled mod
(different `mod_id`) overlaps on the `ui_scripts ∪ import_files` set. -/
def check_mod_conflicts (m : DbMod) (enabledAll : List DbMod) : Bool :=
  let others := enabledAll.filter (fun o => o.mod_id ≠ m.mod_id)
  others.any (fun o => decide ((mod_files m ∩ mod_files o).Nonempty))

/-! ## XML documents

An element tree node: tag (namespace-qualified tags keep the
`\x7bns\x7d` marker in the tag string, as in `xml.etree.ElementTree`),
attributes, the element's own text, and child elements. -/

inductive Xml where
  | elem (tag : String) (attrs : List (String × String)) (text : Option String)
      (children : List Xml)

def Xml.tag : Xml → String
  | .elem t _ _ _ => t

def Xml.attrs : Xml → List (String × String)
  | .elem _ a _ _ => a

def Xml.text : Xml → Option String
  | .elem _ _ tx _ => tx

def Xml.children : Xml → List Xml
  | .elem _ _ _ cs => cs

mutual

/-- All proper descendants in document order. -/
def Xml.descendants : Xml → List Xml
  | .elem _ _ _ cs => Xml.descList cs

def Xml.descList : List Xml → List Xml
  | [] => []
  | c :: cs => c :: Xml.descendants c ++ Xml.descList cs

end

/-- `element.get(key)` — attribute lookup. -/
def Xml.attrGet (e : Xml) (k : String) : Option String :=
  (e.attrs.find? (fun p => p.1 == k)).map (·.2)

/-- `element.get(key, default)`. -/
def Xml.attrD (e : Xml) (k d : String) : String :=
  (e.attrGet k).getD d

/-- `element.findall('.//T')` — all descendants with the given tag, in
document order. -/
def Xml.findAllDeep (e : Xml) (t : String) : List Xml :=
  e.descendants.filter (fun c => c.tag == t)

/-- `element.find('.//T')`. -/
def Xml.findDeep (e : Xml) (t : String) : Option Xml :=
  (e.findAllDeep t).head?

/-- `element.find('T')` — first direct child with the given tag. -/
def Xml.findChild (e : Xml) (t : String) : Option Xml :=
  (e.children.filter (fun c => c.tag == t)).head?

/-! ## `src/src/modinfo.py` — `ModInfo._load_metadata` -/

/-- The `self.metadata` dict of `ModInfo`. -/
structure MetaData where
  id : String
  version : String
  display_name : String
  authors : String
  affects_saves : Bool
  dependencies : List (String × String)
  affected_files : Finset String
deriving DecidableEq

/-- The defaults `ModInfo.__init__` puts in `self.metadata` before
`_load_metadata` runs. -/
def init_metadata : MetaData :=
  { id := "", version := "", display_name := "", authors := "",
    affects_saves := false, dependencies := [], affected_files := ∅ }

/-- A mod directory as `_load_metadata` sees it: the folder name, the
`*.modinfo` glob matches (each either a parsed document or the message
of the `ET.ParseError` parsing it raises), and the optional
`text/en_us/ModuleText.xml` document. -/
structure ModDir where
  folderName : String
  modinfoFiles : List (Except String Xml)
  locFile : Option (Except String Xml)

/-- Namespace-prefix computation:
`ns = root.tag.split('\x7d')[0].strip('\x7b')` wrapped back in braces,
when the root tag carries a namespace marker. -/
def ns_prefix_of (tag : String) : String :=
  if tag.data.contains '\x7d' then
    "\x7b" ++
      (⟨((((split_on_char '\x7d' tag.data).headD []).dropWhile
            (· = '\x7b')).reverse.dropWhile (· = '\x7b')).reverse⟩ : String) ++ "\x7d"
  else ""

/-- The comparison `direct_name[0:4] == 'LOC_'` in the source slices the
`Name` *element's children* and compares that list with a string; in
Python a `list`/`str` comparison is always `False`. -/
def py_elem_slice_eq_str (_e : Xml) (_a _b : Nat) (_s : String) : Bool :=
  false

/-- The comparison `tag == name_tag` in `_get_localized_name` compares a
string with an `Element`; always `False` in Python. -/
def py_str_eq_elem (_s : String) (_e : Xml) : Bool :=
  false

/-- The final expression `affects_saves == '1' if affects_saves else False`:
`affects_saves` is an `Element`, so the truthiness test checks for
children and the equality with a string is always `False`. -/
def py_elem_eq_str (_e : Xml) (_s : String) : Bool :=
  false

def py_elem_truthy (e : Xml) : Bool :=
  !e.children.isEmpty

/-- `ModInfo._get_element_text(parent, tag)`. -/
def get_element_text (parent : Xml) (t : String) : String :=
  match parent.findDeep t with
  | none => ""
  | some e =>
    match e.text with
    | none => ""
    | some tx => if tx = "" then "" else str_trim tx

/-- Row scan of `_get_localized_name`: `row.get('Tag')` truthy and equal
to the `Name` element (never, per `py_str_eq_elem`). -/
def find_loc_row (nameTag : Xml) : List Xml → Option String
  | [] => none
  | row :: rest =>
    match row.attrGet "Tag" with
    | some tg =>
      if tg != "" && py_str_eq_elem tg nameTag then some (get_element_text row "Text")
      else find_loc_row nameTag rest
    | none => find_loc_row nameTag rest

/-- `ModInfo._get_localized_name`: raises `FileNotFoundError` when the
localization file is missing (the check precedes its `try`), returns
`None` on a parse error or an unmatched tag. -/
def get_localized_name (d : ModDir) (nameTag : Xml) : Except String (Option String) :=
  match d.locFile with
  | none => .error "FileNotFoundError"
  | some (.error _) => .ok none
  | some (.ok root) =>
    .ok (find_loc_row nameTag (root.findAllDeep "Row"))

/-- One affected-file bucket: walk every `ActionGroup`, its `Actions`
block, every action element of the given tag, and collect the stripped
text of every truthy `Item`. -/
def bucket_set (nsP : String) (tagName : String) (root : Xml) : Finset String :=
  (root.findAllDeep (nsP ++ "ActionGroup")).foldl
    (fun acc ag =>
      match ag.findDeep (nsP ++ "Actions") with
      | none => acc
      | some actions =>
        (actions.findAllDeep (nsP ++ tagName)).foldl
          (fun acc2 act =>
            (act.findAllDeep (nsP ++ "Item")).foldl
              (fun acc3 item =>
                match item.text with
                | some t => if t ≠ "" then insert (str_trim t) acc3 else acc3
                | none => acc3)
              acc2)
          acc)
    ∅

/-- Dependency extraction: every `Mod` under the `Dependencies` block,
as `(id, title)` pairs. -/
def deps_of (nsP : String) (root : Xml) : List (String × String) :=
  match root.findDeep (nsP ++ "Dependencies") with
  | none => []
  | some deps =>
    (deps.findAllDeep (nsP ++ "Mod")).map
      (fun dep => (dep.attrD "id" "", dep.attrD "title" ""))

/-- The `try` body of `ModInfo._load_metadata`, with each `raise`
becoming an error value. -/
def load_metadata_e (d : ModDir) : Except String MetaData :=
  match d.modinfoFiles.head? with
  | none => .error "No .modinfo file found"
  | some (.error e) => .error e
  | some (.ok root) =>
    let nsP := ns_prefix_of root.tag
    if root.attrD "id" "" = "" then .error "ID attribute not found"
    else
      match root.findDeep (nsP ++ "Properties") with
      | none => .error "Properties element not found"
      | some properties =>
        match properties.findChild (nsP ++ "Name") with
        | none => .error "Name element not found"
        | some directName =>
          let nameStep : Except String String :=
            if py_elem_slice_eq_str directName 0 4 "LOC_" then
              match get_localized_name d directName with
              | .error e => .error e
              | .ok (some l) => .ok (if l = "" then d.folderName else l)
              | .ok none => .ok d.folderName
            else .ok d.folderName
          match nameStep with
          | .error e => .error e
          | .ok finalName =>
            match properties.findChild (nsP ++ "AffectsSavedGames") with
            | none => .error "AffectsSavedGames element not found"
            | some affectsElem =>
              if bucket_set nsP "UpdateDatabase" root = ∅ ∧
                 bucket_set nsP "UpdateText" root = ∅ ∧
                 bucket_set nsP "UIScripts" root = ∅ ∧
                 bucket_set nsP "ImportFiles" root = ∅ then
                .error "No affected files found"
              else
                .ok { id := root.attrD "id" "",
                      version := root.attrD "version" "",
                      display_name := finalName,
                      authors := get_element_text properties (nsP ++ "Authors"),
                      affects_saves :=
                        if py_elem_truthy affectsElem then py_elem_eq_str affectsElem "1"
                        else false,
                      dependencies := deps_of nsP root,
                      affected_files :=
                        bucket_set nsP "UIScripts" root ∪ bucket_set nsP "ImportFiles" root }

/-- `ModInfo._load_metadata` as the constructor observes it: any raised
exception is caught and replaced by the sentinel metadata. -/
def load_metadata (d : ModDir) : MetaData :=
  match load_metadata_e d with
  | .ok m => m
  | .error _ =>
    { init_metadata with display_name := d.folderName, id := "ModInfo File Broken" }

/-! ## `src/src/app/utilities/modinfo_parser.py` — `parse_modinfo`

BeautifulSoup-style accessors: CSS tag selection over all descendants,
and `.text` concatenating every string in the subtree. -/

mutual

/-- BeautifulSoup `.text`: all character data of the subtree. -/
def Xml.bsText : Xml → String
  | .elem _ _ tx cs => tx.getD "" ++ Xml.bsTextList cs

def Xml.bsTextList : List Xml → String
  | [] => ""
  | c :: cs => Xml.bsText c ++ Xml.bsTextList cs

end

/-- `tag.select("T")`: every descendant of `tag` with the given name. -/
def selectAll (t : String) (e : Xml) : List Xml :=
  e.descendants.filter (fun c => c.tag == t)

/-- `tag.select_one("T")`. -/
def selectOne (t : String) (e : Xml) : Option Xml :=
  (selectAll t e).head?

/-- `soup.select_one("T")` on the whole document: the top-level nodes
and all their descendants are searched. -/
def soupSelectOne (t : String) (nodes : List Xml) : Option Xml :=
  (((nodes.map (fun e => e :: e.descendants)).flatten).filter (fun c => c.tag == t)).head?

/-- `BASE_GAME_MODS` (src/src/utilities/constants.py). -/
def base_game_mods : List String :=
  ["age-antiquity", "age-exploration", "age-modern", "base-standard", "core", "telemetry"]

/-- `DLC_MODS` (src/src/utilities/constants.py). -/
def dlc_mods : List String :=
  ["ashoka-himiko-alt", "ashoka-himiko-alt-shell", "boot-shell",
   "friedrich-xerxes-alt", "friedrich-xerxes-alt-shell", "napoleon",
   "napoleon-alt", "napoleon-alt-shell", "napoleon-shell",
   "shawnee-tecumseh", "shawnee-tecumseh-shell"]

/-- The mod descriptor dataclass `ModInfo` of the parser module.  The
web-catalog presentation fields (`web_id`, `description`,
`download_count`, `last_updated`, `rating`, `icon_url`) are only
written by the network layer and are omitted; the `affected_files`
dict is expanded into its four fixed buckets. -/
structure PModInfo where
  mod_id : String
  display_name : String
  file_path : String
  provider : String
  affects_saves : Option Bool
  version : String
  authors : String
  tag_line : String
  dependencies : Finset String
  update_db : Finset String
  update_text : Finset String
  ui_scripts : Finset String
  import_files : Finset String

/-- Input to `parse_modinfo`: the folder name and path of the directory
holding the metadata file, the parsed document (`none` models a missing
file, i.e. `FileNotFoundError`), and the localization files reachable
from the mod root, keyed by their relative path. -/
structure PFileSys where
  parentName : String
  parentPath : String
  soup : Option (List Xml)
  locFiles : List (String × List Xml)

/-- Row scan of the parser's `_get_localized_name`; the comparison
`tag == name_tag` is string-vs-`Tag`, hence always `False`. -/
def find_p_loc_row (nameTag : Xml) : List Xml → Option String
  | [] => none
  | row :: rest =>
    match row.attrGet "Tag" with
    | some tg =>
      if tg != "" && py_str_eq_elem tg nameTag then
        match selectOne "Text" row with
        | none => none
        | some t => some (str_trim (Xml.bsText t))
      else find_p_loc_row nameTag rest
    | none => find_p_loc_row nameTag rest

/-- `_get_localized_name(name_tag, loc_file_path)` of the parser module:
`None` when the file is missing, the document lacks
`Database`/`EnglishText`, or no row's `Tag` equals `name_tag`. -/
def p_get_localized_name (nameTag : Xml) (fileSoup : Option (List Xml)) : Option String :=
  match fileSoup with
  | none => none
  | some nodes =>
    match soupSelectOne "Database" nodes with
    | none => none
    | some rootDb =>
      match selectOne "EnglishText" rootDb with
      | none => none
      | some engl => find_p_loc_row nameTag (selectAll "Row" engl)

/-- One step of the `LocalizedText/File` loop: an `en_us` file is
looked up and a truthy result replaces the running name. -/
def loc_step (f : PFileSys) (nameElm : Xml) (n : String) (locFile : Xml) : String :=
  let rel := str_trim (Xml.bsText locFile)
  if str_contains_sub rel "en_us" then
    match p_get_localized_name nameElm
        ((f.locFiles.find? (fun q => q.1 == rel)).map (·.2)) with
    | some ln => if ln = "" then n else ln
    | none => n
  else n

/-- The `LOC_` resolution block of `parse_modinfo`: scan the
`LocalizedText/File` entries containing `en_us`, keeping the last
successful (truthy) lookup. -/
def loc_resolve (f : PFileSys) (root : Xml) (nameElm : Xml) (name0 : String) : String :=
  if str_starts_with name0 "LOC_" then
    match selectOne "LocalizedText" root with
    | none => name0
    | some locElm => (selectAll "File" locElm).foldl (loc_step f nameElm) name0
  else name0

/-- One affected-file bucket of `parse_modinfo`. -/
def p_bucket (tagName : String) (root : Xml) : Finset String :=
  (selectAll "ActionGroup" root).foldl
    (fun acc ag =>
      match selectOne "Actions" ag with
      | none => acc
      | some actions =>
        (selectAll tagName actions).foldl
          (fun acc2 act =>
            (selectAll "Item" act).foldl
              (fun acc3 item =>
                if Xml.bsText item ≠ "" then insert (str_trim (Xml.bsText item)) acc3 else acc3)
              acc2)
          acc)
    ∅

/-- Dependency extraction of `parse_modinfo`: `Mod[@id]` entries under
the `Dependencies` block found below `Properties`, with base-game and
DLC package ids filtered out. -/
def p_deps (properties : Xml) : Finset String :=
  match selectOne "Dependencies" properties with
  | none => ∅
  | some depsElm =>
    (selectAll "Mod" depsElm).foldl
      (fun acc dep =>
        match dep.attrGet "id" with
        | some depId =>
          if depId ≠ "" ∧ depId ∉ base_game_mods ∧ depId ∉ dlc_mods then
            insert depId acc
          else acc
        | none => acc)
      ∅

/-- `parse_modinfo(modinfo_path)`: `none` models the `None` returned
after a caught `ParseError` or `FileNotFoundError`. -/
def parse_modinfo (f : PFileSys) : Option PModInfo :=
  match f.soup with
  | none => none
  | some nodes =>
    match soupSelectOne "Mod" nodes with
    | none => none
    | some root =>
      match root.attrGet "id" with
      | none => none
      | some mod_id =>
        let version := (root.attrGet "version").getD "N/A"
        match selectOne "Properties" root with
        | none => none
        | some properties =>
          match selectOne "Name" properties with
          | none => none
          | some nameElm =>
            let name1 := loc_resolve f root nameElm (str_trim (Xml.bsText nameElm))
            let name := if str_starts_with name1 "LOC_" then mod_id else name1
            let authors :=
              match selectOne "Authors" properties with
              | none => "N/A"
              | some e => str_trim (Xml.bsText e)
            let tagLine :=
              match selectOne "Description" properties with
              | none => ""
              | some e => str_trim (Xml.bsText e)
            let affectsSaves :=
              match selectOne "AffectsSavedGames" properties with
              | none => none
              | some e => some (!(str_trim (Xml.bsText e) == "0"))
            some { mod_id := mod_id,
                   display_name := name,
                   file_path := f.parentPath,
                   provider := "local",
                   affects_saves := affectsSaves,
                   version := version,
                   authors := authors,
                   tag_line := tagLine,
                   dependencies := p_deps properties,
                   update_db := p_bucket "UpdateDatabase" root,
                   update_text := p_bucket "UpdateText" root,
                   ui_scripts := p_bucket "UIScripts" root,
                   import_files := p_bucket "ImportFiles" root }

/-! ## Concrete fixtures used by witnesses and counterexamples -/

/-- A metadata payload shared by the two C5 archives: both declare the
same mod identity `real_mod_id` inside the file. -/
def c5_content : String :=
  "<Mod id=\"real_mod_id\"><Properties><Name>X</Name></Properties></Mod>"

def c5_arch_a : ArchiveInput :=
  ⟨"download-111.zip", [(["NameA.modinfo"], c5_content)], .success, .success⟩

def c5_arch_b : ArchiveInput :=
  ⟨"download-111.zip", [(["NameB.modinfo"], c5_content)], .success, .success⟩

def c6_arch : ArchiveInput :=
  ⟨"dl.zip",
   [(["Sub", "NameA.modinfo"], "meta"), (["junk.txt"], "j"), (["Sub", "ui", "a.js"], "s")],
   .success, .success⟩

def c2A : MMod := ⟨"FolderA", "Mod A", "a_id", true, ["shared.js"], []⟩

def c2B : MMod := ⟨"FolderB", "Mod B", "b_id", true, ["shared.js"], []⟩

def c2_mods : List MMod := [c2A, c2B]

def c8_pre : MMod := ⟨"FA", "Mod A", "a_id", true, ["shared.js"], [("Mod B", "shared.js")]⟩

def c3_a : DbMod := ⟨"a_mod", {"data.sql"}, ∅, {"ui/panel.js"}, ∅⟩

/-- A mod sharing only an `UpdateDatabase` item with `c3_a`. -/
def c3_db_only : DbMod := ⟨"c_mod", {"data.sql"}, ∅, ∅, ∅⟩

def c4_name_elm : Xml := .elem "Name" [] (some "Sample") []

def c4_aff_elm : Xml := .elem "AffectsSavedGames" [] (some "0") []

def c4_props : Xml := .elem "Properties" [] none [c4_name_elm, c4_aff_elm]

/-- A well-formed metadata root (id, Properties, Name,
AffectsSavedGames) that declares no affected file anywhere. -/
def c4_root : Xml := .elem "Mod" [("id", "sample.mod")] none [c4_props]

def c4_soup : List Xml :=
  [.elem "Mod" [("id", "x_id")] none
    [.elem "Properties" [] none [.elem "Name" [] (some "My Mod") []]]]

def c4_input : PFileSys := ⟨"SomeFolder", "/mods/SomeFolder", some c4_soup, []⟩

def c7_name_elm : Xml := .elem "Name" [] (some "LOC_NAME") []

def c7_props : Xml := .elem "Properties" [] none [c7_name_elm]

def c7_root : Xml := .elem "Mod" [("id", "the_mod_id")] none [c7_props]

/-- A mod folder `MyFolder` whose metadata `Name` is the unresolved
localization tag `LOC_NAME` and which carries no localization file. -/
def c7_input : PFileSys := ⟨"MyFolder", "/mods/MyFolder", some [c7_root], []⟩

/-! ## Theorems -/

/-! ### Properties of the canonical string-set listing -/

theorem string_data_inj {a b : String} (h : a.data = b.data) : a = b := by
  cases a
  cases b
  exact congrArg String.mk h

theorem chars_lt_irrefl (l : List Char) : chars_lt l l = false := by
  induction l with
  | nil => rfl
  | cons a as ih => simp [chars_lt, ih]

theorem chars_lt_asymm : ∀ {l₁ l₂ : List Char}, chars_lt l₁ l₂ = true →
    chars_lt l₂ l₁ = false
  | [], [], h => by simp [chars_lt] at h
  | [], _ :: _, _ => by simp [chars_lt]
  | _ :: _, [], h => by simp [chars_lt] at h
  | a :: as, b :: bs, h => by
    by_cases hab : a = b
    · subst hab
      simp only [chars_lt, if_pos rfl] at h ⊢
      exact chars_lt_asymm h
    · simp only [chars_lt, if_neg hab, if_neg (Ne.symm hab),
        decide_eq_true_eq, decide_eq_false_iff_not] at h ⊢
      exact lt_asymm h

theorem chars_lt_trans : ∀ {l₁ l₂ l₃ : List Char}, chars_lt l₁ l₂ = true →
    chars_lt l₂ l₃ = true → chars_lt l₁ l₃ = true
  | [], [], _, h₁, _ => by simp [chars_lt] at h₁
  | [], _ :: _, [], _, h₂ => by simp [chars_lt] at h₂
  | [], _ :: _, _ :: _, _, _ => by simp [chars_lt]
  | _ :: _, [], _, h₁, _ => by simp [chars_lt] at h₁
  | _ :: _, _ :: _, [], _, h₂ => by simp [chars_lt] at h₂
  | a :: as, b :: bs, c :: cs, h₁, h₂ => by
    by_cases hab : a = b <;> by_cases hbc : b = c
    · subst hab; subst hbc
      simp only [chars_lt, if_pos rfl] at h₁ h₂ ⊢
      exact chars_lt_trans h₁ h₂
    · subst hab
      simpa only [chars_lt, if_neg hbc] using h₂
    · subst hbc
      simpa only [chars_lt, if_neg hab] using h₁
    · simp only [chars_lt, if_neg hab, if_neg hbc, decide_eq_true_eq] at h₁ h₂
      have hac : a < c := lt_trans h₁ h₂
      simp [chars_lt, ne_of_lt hac, hac]

theorem chars_lt_total : ∀ {l₁ l₂ : List Char}, chars_lt l₁ l₂ = false →
    l₁ ≠ l₂ → chars_lt l₂ l₁ = true
  | [], [], _, hne => absurd rfl hne
  | [], _ :: _, h, _ => by simp [chars_lt] at h
  | _ :: _, [], _, _ => by simp [chars_lt]
  | a :: as, b :: bs, h, hne => by
    by_cases hab : a = b
    · subst hab
      simp only [chars_lt, if_pos rfl] at h ⊢
      exact chars_lt_total h (by simpa using hne)
    · simp only [chars_lt, if_neg hab, decide_eq_false_iff_not] at h
      have hba : b < a := lt_of_le_of_ne (le_of_not_lt h) (Ne.symm hab)
      simp [chars_lt, Ne.symm hab, hba]

theorem str_lt_trans {a b c : String} (h₁ : str_lt a b) (h₂ : str_lt b c) :
    str_lt a c :=
  chars_lt_trans h₁ h₂

theorem str_lt_ne {a b : String} (h : str_lt a b) : a ≠ b := by
  intro he
  subst he
  exact absurd h (by simp [str_lt, chars_lt_irrefl])

instance : IsAntisymm String str_lt :=
  ⟨fun a b h₁ h₂ => absurd h₁ (by simp [str_lt, chars_lt_asymm h₂])⟩

theorem str_lt_of_not {a b : String} (h : ¬ str_lt a b) (hne : a ≠ b) :
    str_lt b a := by
  refine chars_lt_total (by simpa [str_lt] using h) ?_
  exact fun hd => hne (string_data_inj hd)

theorem mem_set_insert (s x : String) (l : List String) :
    x ∈ set_insert s l ↔ x = s ∨ x ∈ l := by
  induction l with
  | nil => simp [set_insert]
  | cons t rest ih =>
    by_cases hst : s = t
    · subst hst
      rw [show set_insert s (s :: rest) = s :: rest from by
        rw [set_insert, if_pos rfl]]
      rw [List.mem_cons]
      tauto
    · by_cases hlt : chars_lt s.data t.data
      · rw [show set_insert s (t :: rest) = s :: t :: rest from by
          rw [set_insert, if_neg hst, if_pos hlt]]
        simp only [List.mem_cons]
      · rw [show set_insert s (t :: rest) = t :: set_insert s rest from by
          rw [set_insert, if_neg hst, if_neg hlt]]
        rw [List.mem_cons, ih, List.mem_cons]
        tauto

theorem sorted_set_insert (s : String) (l : List String) (h : l.Sorted str_lt) :
    (set_insert s l).Sorted str_lt := by
  induction l with
  | nil => simp [set_insert]
  | cons t rest ih =>
    rw [List.sorted_cons] at h
    obtain ⟨ht, hrest⟩ := h
    by_cases hst : s = t
    · subst hst
      rw [show set_insert s (s :: rest) = s :: rest from by
        rw [set_insert, if_pos rfl]]
      rw [List.sorted_cons]
      exact ⟨ht, hrest⟩
    · by_cases hlt : chars_lt s.data t.data
      · rw [show set_insert s (t :: rest) = s :: t :: rest from by
          rw [set_insert, if_neg hst, if_pos hlt]]
        rw [List.sorted_cons]
        refine ⟨?_, by rw [List.sorted_cons]; exact ⟨ht, hrest⟩⟩
        intro b hb
        rcases List.mem_cons.mp hb with rfl | hb
        · exact hlt
        · exact str_lt_trans hlt (ht b hb)
      · rw [show set_insert s (t :: rest) = t :: set_insert s rest from by
          rw [set_insert, if_neg hst, if_neg hlt]]
        rw [List.sorted_cons]
        refine ⟨?_, ih hrest⟩
        intro b hb
        rcases (mem_set_insert s b rest).mp hb with rfl | hb
        · exact str_lt_of_not hlt hst
        · exact ht b hb

theorem sorted_set_sort (l : List String) : (set_sort l).Sorted str_lt := by
  induction l with
  | nil => simp [set_sort]
  | cons s rest ih => exact sorted_set_insert s _ ih

theorem mem_set_sort (x : String) (l : List String) :
    x ∈ set_sort l ↔ x ∈ l := by
  induction l with
  | nil => simp [set_sort]
  | cons s rest ih =>
    rw [set_sort, mem_set_insert, ih, List.mem_cons]

theorem nodup_of_sorted (l : List String) (h : l.Sorted str_lt) : l.Nodup :=
  h.imp (fun hl => str_lt_ne hl)

theorem common_files_comm (x y : List String) :
    common_files x y = common_files y x := by
  unfold common_files
  refine List.eq_of_perm_of_sorted ?_ (sorted_set_sort _) (sorted_set_sort _)
  rw [List.perm_ext_iff_of_nodup (nodup_of_sorted _ (sorted_set_sort _))
    (nodup_of_sorted _ (sorted_set_sort _))]
  intro s
  rw [mem_set_sort, mem_set_sort, List.mem_filter, List.mem_filter]
  simp [and_comm]

/-! ### Properties of the conflicts dict -/

theorem dict_get_set_self (d : List (String × String)) (k v : String) :
    dict_get (dict_set d k v) k = some v := by
  induction d with
  | nil => simp [dict_set, dict_get]
  | cons p rest ih =>
    rcases p with ⟨k', v'⟩
    by_cases h : k' = k
    · subst h
      simp [dict_set, dict_get]
    · simp [dict_set, dict_get, h, ih]

theorem dict_get_set_ne (d : List (String × String)) (k v k' : String)
    (h : k' ≠ k) : dict_get (dict_set d k v) k' = dict_get d k' := by
  induction d with
  | nil => simp [dict_set, dict_get, Ne.symm h]
  | cons p rest ih =>
    rcases p with ⟨k'', v''⟩
    by_cases hk : k'' = k
    · subst hk
      simp [dict_set, dict_get, Ne.symm h]
    · simp [dict_set, dict_get, hk, ih]

theorem add_pair_get_self (k : String) :
    ∀ (files : List String) (d : List (String × String)),
    dict_get (add_pair_conflicts d k files) k = files.getLast?.or (dict_get d k) := by
  intro files
  induction files with
  | nil => intro d; rfl
  | cons f fs ih =>
    intro d
    have h1 : add_pair_conflicts d k (f :: fs) = add_pair_conflicts (dict_set d k f) k fs := rfl
    rw [h1, ih, dict_get_set_self]
    cases fs with
    | nil => rfl
    | cons g gs =>
      rw [List.getLast?_cons_cons]
      have : (g :: gs).getLast?.isSome := by
        rw [List.getLast?_isSome]
        simp
      obtain ⟨x, hx⟩ := Option.isSome_iff_exists.mp this
      rw [hx]
      rfl

theorem add_pair_get_ne (k key : String) (hne : key ≠ k) :
    ∀ (files : List String) (d : List (String × String)),
    dict_get (add_pair_conflicts d k files) key = dict_get d key := by
  intro files
  induction files with
  | nil => intro d; rfl
  | cons f fs ih =>
    intro d
    have h1 : add_pair_conflicts d k (f :: fs) = add_pair_conflicts (dict_set d k f) k fs := rfl
    rw [h1, ih, dict_get_set_ne _ _ _ _ hne]

theorem conflict_fold_no_touch (a : MMod) (key : String) :
    ∀ (L : List MMod) (d : List (String × String)),
    (∀ o ∈ L, o.folder ≠ a.folder → o.display ≠ key) →
    dict_get (L.foldl (conflict_step a) d) key = dict_get d key := by
  intro L
  induction L with
  | nil => intro d _; rfl
  | cons o rest ih =>
    intro d h
    rw [List.foldl_cons, ih _ (fun o' ho' => h o' (List.mem_cons_of_mem _ ho'))]
    unfold conflict_step
    by_cases hf : o.folder ≠ a.folder
    · rw [if_pos hf, add_pair_get_ne _ _ (Ne.symm (h o (List.mem_cons_self o rest) hf))]
    · rw [if_neg hf]

theorem conflict_fold_get (a b : MMod) (hbf : b.folder ≠ a.folder) :
    ∀ (L : List MMod) (d : List (String × String)),
    (L.map (·.display)).Nodup → b ∈ L →
    dict_get (L.foldl (conflict_step a) d) b.display =
      (common_files a.affected b.affected).getLast?.or (dict_get d b.display) := by
  intro L
  induction L with
  | nil => intro d _ hb; exact absurd hb (List.not_mem_nil b)
  | cons o rest ih =>
    intro d hn hb
    rw [List.map_cons, List.nodup_cons] at hn
    obtain ⟨hhead, htail⟩ := hn
    rw [List.foldl_cons]
    rcases List.mem_cons.mp hb with rfl | hbr
    · rw [conflict_fold_no_touch a b.display rest _ ?_]
      · unfold conflict_step
        rw [if_pos hbf, add_pair_get_self]
      · intro o' ho' _
        exact fun he => hhead (he ▸ List.mem_map_of_mem (·.display) ho')
    · rw [ih _ htail hbr]
      have hod : o.display ≠ b.display :=
        fun he => hhead (he ▸ List.mem_map_of_mem (·.display) hbr)
      unfold conflict_step
      by_cases hf : o.folder ≠ a.folder
      · rw [if_pos hf, add_pair_get_ne _ _ (Ne.symm hod)]
      · rw [if_neg hf]

/-! ### C2 — shape and symmetry of the conflict report -/

/-- C2 counterexample: after `_update_conflicts` on two enabled mods
sharing `shared.js`, each mod's conflicts dict is keyed by the *display
name* of the other mod and holds a *single* overlapping file string —
the other mod's `mod_id` (`"b_id"`) appears nowhere as a key, so
entries are not keyed by mod id and do not hold sets of pairs. -/
theorem conflict_entries_keyed_by_display_name :
    ((update_conflicts c2_mods).map (·.conflicts) =
      [[("Mod B", "shared.js")], [("Mod A", "shared.js")]]) ∧
    dict_get (conflicts_for c2_mods c2A) "b_id" = none ∧
    c2B.modId = "b_id" := by
  decide

/-- C2 amended: the conflict report produced by `_update_conflicts` is
symmetric, with entries keyed by the other mod's display name and
holding a single overlapping file: provided the enabled mods carry
pairwise-distinct display names, mod `a`'s entry under `b`'s display
name and mod `b`'s entry under `a`'s display name are the same — both
are the canonically last element of the shared-file listing (present
exactly when the affected-file sets overlap). -/
theorem update_conflicts_symmetric (mods : List MMod) (a b : MMod)
    (hd : ((mods.filter (·.enabled)).map (·.display)).Nodup)
    (ha : a ∈ mods) (hb : b ∈ mods)
    (hae : a.enabled = true) (hbe : b.enabled = true)
    (hne : a.folder ≠ b.folder) :
    ({ a with conflicts := conflicts_for mods a } ∈ update_conflicts mods) ∧
    dict_get (conflicts_for mods a) b.display =
      (common_files a.affected b.affected).getLast? ∧
    dict_get (conflicts_for mods b) a.display =
      (common_files a.affected b.affected).getLast? := by
  refine ⟨List.mem_map.mpr ⟨a, ha, rfl⟩, ?_, ?_⟩
  · unfold conflicts_for
    rw [if_pos hae,
      conflict_fold_get a b (Ne.symm hne) _ _ hd (List.mem_filter.mpr ⟨hb, hbe⟩)]
    cases h : (common_files a.affected b.affected).getLast? <;> rfl
  · unfold conflicts_for
    rw [if_pos hbe,
      conflict_fold_get b a hne _ _ hd (List.mem_filter.mpr ⟨ha, hae⟩),
      common_files_comm]
    cases h : (common_files a.affected b.affected).getLast? <;> rfl

/-- C2 witness for the amended statement. -/
theorem update_conflicts_symmetric_witness :
    ({ c2A with conflicts := conflicts_for c2_mods c2A } ∈ update_conflicts c2_mods) ∧
    dict_get (conflicts_for c2_mods c2A) c2B.display =
      (common_files c2A.affected c2B.affected).getLast? ∧
    dict_get (conflicts_for c2_mods c2B) c2A.display =
      (common_files c2A.affected c2B.affected).getLast? :=
  update_conflicts_symmetric c2_mods c2A c2B (by decide) (by decide) (by decide)
    (by decide) (by decide) (by decide)

/-! ### C8 — disabling all mods empties the conflict report -/

/-- C8: after `disable_all_mods` (which unchecks every mod and then
recomputes conflicts), every mod's conflicts dict is empty, whatever
was recorded before and whatever the starting collection was. -/
theorem disable_all_empty_conflicts (mods : List MMod) (m : MMod)
    (hm : m ∈ disable_all_mods mods) : m.conflicts = [] := by
  rw [disable_all_mods, update_conflicts] at hm
  rw [List.mem_map] at hm
  obtain ⟨m1, hm1, rfl⟩ := hm
  rw [List.mem_map] at hm1
  obtain ⟨m0, _, rfl⟩ := hm1
  simp [conflicts_for]

/-- C8 witness: a mod that was enabled and had a recorded conflict has
an empty conflicts dict after `disable_all_mods`. -/
theorem disable_all_empty_conflicts_witness :
    MMod.conflicts ⟨"FA", "Mod A", "a_id", false, ["shared.js"], []⟩ = [] :=
  disable_all_empty_conflicts [c8_pre] _ (by decide)

/-! ### C3 — conflicts compare only the UIScripts ∪ ImportFiles buckets -/

/-- C3: `_check_mod_conflicts` flags a conflict exactly when some other
enabled mod (distinct `mod_id`) overlaps on `ui_scripts ∪ import_files`
(`mod_files`); and a pair whose `ui_scripts ∪ import_files` sets are
disjoint — for instance two mods sharing only `UpdateDatabase` or
`UpdateText` items — produces no conflict. -/
theorem check_mod_conflicts_iff (m : DbMod) (os : List DbMod) :
    (check_mod_conflicts m os = true ↔
      ∃ o ∈ os, o.mod_id ≠ m.mod_id ∧ (mod_files m ∩ mod_files o).Nonempty) ∧
    (∀ o, o.mod_id ≠ m.mod_id → mod_files m ∩ mod_files o = ∅ →
      check_mod_conflicts m [o] = false) := by
  constructor
  · rw [check_mod_conflicts, List.any_eq_true]
    constructor
    · rintro ⟨o, ho, hdec⟩
      rw [List.mem_filter] at ho
      exact ⟨o, ho.1, by simpa using ho.2, by simpa using hdec⟩
    · rintro ⟨o, ho, hne, hnon⟩
      exact ⟨o, List.mem_filter.mpr ⟨ho, by simpa using hne⟩, by simpa using hnon⟩
  · intro o hne hemp
    simp [check_mod_conflicts, hne, hemp]

/-- C3 witness: two enabled mods sharing only the `UpdateDatabase` item
`data.sql` are not flagged as conflicting. -/
theorem check_mod_conflicts_iff_witness :
    check_mod_conflicts c3_a [c3_db_only] = false :=
  (check_mod_conflicts_iff c3_a [c3_db_only]).2 c3_db_only (by decide) (by decide)

/-! ### C10 — the `ModInfo` constructor never propagates a load failure -/

/-- C10: whenever the `try` body of `ModInfo._load_metadata` raises
(no metadata file, parse error, missing id / Properties / Name /
AffectsSavedGames, empty affected-file sets), the constructor still
produces metadata, with the sentinel id `"ModInfo File Broken"` and the
folder name as display name. -/
theorem load_metadata_sentinel_on_failure (d : ModDir) (e : String)
    (h : load_metadata_e d = .error e) :
    (load_metadata d).id = "ModInfo File Broken" ∧
    (load_metadata d).display_name = d.folderName := by
  unfold load_metadata
  rw [h]
  exact ⟨rfl, rfl⟩

/-- C10 witness: a directory with no metadata file at all. -/
theorem load_metadata_sentinel_on_failure_witness :
    (load_metadata ⟨"BrokenMod", [], none⟩).id = "ModInfo File Broken" ∧
    (load_metadata ⟨"BrokenMod", [], none⟩).display_name =
      (ModDir.mk "BrokenMod" [] none).folderName :=
  load_metadata_sentinel_on_failure ⟨"BrokenMod", [], none⟩ "No .modinfo file found" rfl

/-! ### C4 — metadata with no affected files -/

/-- C4 counterexample: `parse_modinfo` happily returns a descriptor for
a well-formed metadata file (root id, Properties, Name) whose four
affected-file buckets are all empty — there is no `NoEffect` check in
the newer parser. -/
theorem parse_modinfo_accepts_no_effect :
    ((parse_modinfo c4_input).map (·.update_db) = some ∅) ∧
    ((parse_modinfo c4_input).map (·.update_text) = some ∅) ∧
    ((parse_modinfo c4_input).map (·.ui_scripts) = some ∅) ∧
    ((parse_modinfo c4_input).map (·.import_files) = some ∅) ∧
    (parse_modinfo c4_input).isSome = true := by
  decide

/-- C4 amended: `ModInfo._load_metadata` rejects a metadata file with
all four buckets empty (raising `No affected files found`, which the
constructor maps to the broken-file sentinel), but `parse_modinfo`
succeeds on such a file and returns a descriptor whose four buckets
are all empty. -/
theorem load_metadata_no_effect_error (folder : String) (rest : List (Except String Xml))
    (loc : Option (Except String Xml)) (root props nameElm aff : Xml)
    (hid : root.attrD "id" "" ≠ "")
    (hprops : root.findDeep (ns_prefix_of root.tag ++ "Properties") = some props)
    (hname : props.findChild (ns_prefix_of root.tag ++ "Name") = some nameElm)
    (haff : props.findChild (ns_prefix_of root.tag ++ "AffectsSavedGames") = some aff)
    (h1 : bucket_set (ns_prefix_of root.tag) "UpdateDatabase" root = ∅)
    (h2 : bucket_set (ns_prefix_of root.tag) "UpdateText" root = ∅)
    (h3 : bucket_set (ns_prefix_of root.tag) "UIScripts" root = ∅)
    (h4 : bucket_set (ns_prefix_of root.tag) "ImportFiles" root = ∅) :
    load_metadata_e ⟨folder, .ok root :: rest, loc⟩ = .error "No affected files found" := by
  rw [load_metadata_e]
  simp only [List.head?_cons, if_neg hid, hprops, hname, haff, py_elem_slice_eq_str,
    Bool.false_eq_true, if_false, h1, h2, h3, h4, eq_self_iff_true, and_self, if_true]

/-- C4 witness for the amended statement. -/
theorem load_metadata_no_effect_error_witness :
    load_metadata_e ⟨"SampleFolder", [.ok c4_root], none⟩ =
      .error "No affected files found" :=
  load_metadata_no_effect_error "SampleFolder" [] none c4_root c4_props c4_name_elm
    c4_aff_elm (by decide) rfl rfl rfl (by decide) (by decide) (by decide) (by decide)

/-! ### C7 — `LOC_` names whose localization lookup fails -/

theorem find_p_loc_row_none (t : Xml) (rows : List Xml) :
    find_p_loc_row t rows = none := by
  induction rows with
  | nil => rfl
  | cons r rest ih =>
    rw [find_p_loc_row]
    cases h : r.attrGet "Tag" with
    | none => exact ih
    | some tg => simpa [py_str_eq_elem] using ih

theorem p_get_localized_name_none (t : Xml) (s : Option (List Xml)) :
    p_get_localized_name t s = none := by
  unfold p_get_localized_name
  cases s with
  | none => rfl
  | some nodes =>
    cases h1 : soupSelectOne "Database" nodes with
    | none => simp [h1]
    | some rootDb =>
      cases h2 : selectOne "EnglishText" rootDb with
      | none => simp [h1, h2]
      | some engl => simp [h1, h2, find_p_loc_row_none]

theorem loc_step_id (f : PFileSys) (nameElm : Xml) (n : String) (lf : Xml) :
    loc_step f nameElm n lf = n := by
  unfold loc_step
  simp only [p_get_localized_name_none]
  split <;> rfl

theorem loc_fold_id (f : PFileSys) (nameElm : Xml) :
    ∀ (L : List Xml) (n : String), L.foldl (loc_step f nameElm) n = n := by
  intro L
  induction L with
  | nil => intro n; rfl
  | cons a rest ih =>
    intro n
    rw [List.foldl_cons, loc_step_id]
    exact ih n

/-- The localization lookup of `parse_modinfo` never changes the name:
the row comparison `tag == name_tag` is string-vs-`Tag` and is always
`False`, so `_get_localized_name` always returns `None`. -/
theorem loc_resolve_id (f : PFileSys) (root nameElm : Xml) (n0 : String) :
    loc_resolve f root nameElm n0 = n0 := by
  unfold loc_resolve
  split
  · cases h : selectOne "LocalizedText" root with
    | none => rfl
    | some locElm => exact loc_fold_id f nameElm _ n0
  · rfl

/-- C7: for a metadata file whose raw `Name` carries the `LOC_` marker,
when localization resolution fails (here: always, see
`loc_resolve_id`), `parse_modinfo` still succeeds — but the resulting
`display_name` falls back to the *mod id*, not the folder name. -/
theorem parse_modinfo_loc_fallback (f : PFileSys) (nodes : List Xml)
    (root props nameElm : Xml) (modId : String)
    (hs : f.soup = some nodes)
    (hr : soupSelectOne "Mod" nodes = some root)
    (hi : root.attrGet "id" = some modId)
    (hp : selectOne "Properties" root = some props)
    (hn : selectOne "Name" props = some nameElm)
    (hloc : str_starts_with (str_trim (Xml.bsText nameElm)) "LOC_" = true) :
    ∃ r, parse_modinfo f = some r ∧ r.display_name = modId := by
  simp only [parse_modinfo, hs, hr, hi, hp, hn, loc_resolve_id, hloc, if_true]
  exact ⟨_, rfl, rfl⟩

/-- C7 witness for the amended statement. -/
theorem parse_modinfo_loc_fallback_witness :
    ∃ r, parse_modinfo c7_input = some r ∧ r.display_name = "the_mod_id" :=
  parse_modinfo_loc_fallback c7_input [c7_root] c7_root c7_props c7_name_elm
    "the_mod_id" rfl rfl rfl rfl rfl (by decide)

/-- C7 counterexample: on the `LOC_`-named fixture the parse succeeds
with `display_name = "the_mod_id"`, which is not the mod's folder name
`"MyFolder"` — the claimed folder-name fallback does not happen in
`parse_modinfo`. -/
theorem loc_fallback_not_folder_name :
    ((parse_modinfo c7_input).map (·.display_name) = some "the_mod_id") ∧
    c7_input.parentName = "MyFolder" ∧ ("the_mod_id" : String) ≠ "MyFolder" := by
  refine ⟨rfl, rfl, by decide⟩

/-! ### C1 — cleanup of temporary extraction state on failure -/

/-- C1 counterexample: calling the `extract` utility on an existing
archive with an unsupported suffix, after it has created the target
(scratch) directory with `os.mkdir`, returns the unsupported-format
error while the freshly created directory is still on disk — no
cleanup happens before the error result is returned. -/
theorem extract_unsupported_keeps_created_dir :
    extract ⟨[["mods", "cool.tar"]], [["mods"]]⟩ ["mods", "cool.tar"]
        (some ["mods", "scratch"]) (.ok []) =
      (⟨[["mods", "cool.tar"]], [["mods"], ["mods", "scratch"]]⟩,
       .res "Unsupported archive format: .tar" none) ∧
    ["mods", "scratch"] ∈
      (extract ⟨[["mods", "cool.tar"]], [["mods"]]⟩ ["mods", "cool.tar"]
        (some ["mods", "scratch"]) (.ok [])).1.dirs := by
  decide

/-- C1 amended: in `ArchiveHandler.extract_mod_folder` the scratch
directory never survives the call — on every failure path the
`except` clause deletes it before the error propagates, and on success
it is renamed away or deleted after the move.  (The `extract` utility
gives no such guarantee, per the counterexample, and a partially moved
destination is not cleaned up.) -/
theorem extract_mod_folder_scratch_always_removed (a : ArchiveInput) :
    (extract_mod_folder a).2 = false := by
  unfold extract_mod_folder
  repeat' split
  all_goals rfl

/-! ### C9 — in-place extraction always raises `FileExistsError` -/

/-- C9: with the target directory omitted, `extract` defaults the
target to the archive's parent directory; since the archive exists its
parent directory exists, so the unconditional `os.mkdir` raises
`FileExistsError` before any extraction occurs and the filesystem is
untouched.  The documented in-place mode can never succeed. -/
theorem extract_inplace_always_file_exists_error (fs : UFS) (p : List String)
    (oc : Except String (List (List String)))
    (hf : p ∈ fs.files) (hd : p.dropLast ∈ fs.dirs) :
    extract fs p none oc = (fs, .exc "FileExistsError") := by
  simp [extract, not_not_intro hf, hd]

/-- C9 witness. -/
theorem extract_inplace_always_file_exists_error_witness :
    extract ⟨[["d", "a.zip"]], [["d"]]⟩ ["d", "a.zip"] none (.ok []) =
      (⟨[["d", "a.zip"]], [["d"]]⟩, .exc "FileExistsError") :=
  extract_inplace_always_file_exists_error ⟨[["d", "a.zip"]], [["d"]]⟩
    ["d", "a.zip"] (.ok []) (by decide) (by decide)

/-! ### C5 — installed directory name -/

/-- C5 counterexample: two archives with the same file name and the
same metadata payload (hence the same declared mod identity), differing
only in the metadata file's own name, install under different directory
names — so the installed name is not derived from the identity declared
inside the metadata file. -/
theorem install_name_ignores_declared_id :
    ((extract_mod_folder c5_arch_a).1.toOption.map (·.modName) = some "NameA") ∧
    ((extract_mod_folder c5_arch_b).1.toOption.map (·.modName) = some "NameB") ∧
    c5_arch_a.fileName = c5_arch_b.fileName ∧
    c5_arch_a.contents.map (·.2) = c5_arch_b.contents.map (·.2) := by
  decide

/-- C5 amended: in `ArchiveHandler.extract_mod_folder` the installed
directory name is the stem of the (first-found) metadata file's own
file name — independent of the archive's original file name, but not
derived from the identity declared inside the metadata.  (The newer
`install_local_mod` flow instead names the directory after the
archive's stem, see `install_local_mod_target_name`.) -/
theorem install_name_from_modinfo_stem (a : ArchiveInput) (p : List String)
    (ht : (get_archive_type a.fileName).isSome) (he : a.extraction = .success)
    (hm : a.moveOut = .success) (hp : first_modinfo a.contents = some p) :
    (∃ r, (extract_mod_folder a).1 = .ok r ∧ r.modName = path_stem (p.getLastD "")) ∧
    (∀ n, (get_archive_type n).isSome →
      (extract_mod_folder { a with fileName := n }).1 = (extract_mod_folder a).1) := by
  obtain ⟨t, ht'⟩ := Option.isSome_iff_exists.mp ht
  constructor
  · simp only [extract_mod_folder, ht', he, hp, hm]
    by_cases hl : p.length = 1
    · rw [if_pos hl]
      exact ⟨_, rfl, rfl⟩
    · rw [if_neg hl]
      exact ⟨_, rfl, rfl⟩
  · intro n hn
    obtain ⟨t', hn'⟩ := Option.isSome_iff_exists.mp hn
    simp only [extract_mod_folder, ht', hn']

/-- C5 witness for the amended statement. -/
theorem install_name_from_modinfo_stem_witness :
    (∃ r, (extract_mod_folder c5_arch_a).1 = .ok r ∧
          r.modName = path_stem (["NameA.modinfo"].getLastD "")) ∧
    (∀ n, (get_archive_type n).isSome →
      (extract_mod_folder { c5_arch_a with fileName := n }).1 =
        (extract_mod_folder c5_arch_a).1) :=
  install_name_from_modinfo_stem c5_arch_a ["NameA.modinfo"]
    (by decide) (by decide) (by decide) (by decide)

/-! ### C6 — single-subfolder archives install exactly that subfolder -/

/-- C6: when the first (here: only) metadata file of the archive sits
directly inside one top-level subfolder `d`, the installed directory
receives exactly the entries under `d` (with the `d` component
stripped); every sibling top-level file or directory of the archive is
absent from the installed result, and the scratch shell is deleted
(`extract_mod_folder_scratch_always_removed`). -/
theorem subfolder_install_exact_contents (a : ArchiveInput) (d nm : String)
    (ht : (get_archive_type a.fileName).isSome) (he : a.extraction = .success)
    (hm : a.moveOut = .success) (hp : first_modinfo a.contents = some [d, nm]) :
    (extract_mod_folder a).1 =
      .ok ⟨path_stem nm,
           a.contents.filterMap
             (fun q => if q.1.head? = some d then some (q.1.tail, q.2) else none)⟩ := by
  obtain ⟨t, ht'⟩ := Option.isSome_iff_exists.mp ht
  simp only [extract_mod_folder, ht', he, hp, hm]
  rw [if_neg (by simp)]
  simp

/-- C6 witness: the sibling `junk.txt` is discarded; the installed
entries are exactly the subtree of `Sub`. -/
theorem subfolder_install_exact_contents_witness :
    (extract_mod_folder c6_arch).1 =
      .ok ⟨path_stem "NameA.modinfo",
           c6_arch.contents.filterMap
             (fun q => if q.1.head? = some "Sub" then some (q.1.tail, q.2) else none)⟩ :=
  subfolder_install_exact_contents c6_arch "Sub" "NameA.modinfo"
    (by decide) (by decide) (by decide) (by decide)

end Civ7MM
